import Mathlib

/-!
Verification of the 1-Wire bus engine, DS18B20 sensor driver and sampling
policy of the imac-5k-control firmware.

The Rust sources are shallowly embedded:
* `src/onewire.rs` — CRC-8, pin-level bus machine (reset, bit/byte I/O,
  address matching, device search) over an explicit line-sample environment
  and an event trace;
* `src/ds18b20.rs` — scratchpad read and sensor-data decoding;
* `src/task/temp_sensor.rs` — the checksum-retry sampling policy.

Machine integers are embedded as `Nat`/`Int` (with masking where the Rust
code relies on fixed width); the `f32` temperature is embedded as `ℚ`,
which is exact here because every value divided is a 16-bit integer and
every divisor is a power of two, so the Rust `f32` arithmetic is exact.
-/

set_option maxRecDepth 8192

namespace Imac5k

/-- Error type of the 1-Wire bus engine (src/onewire.rs lines 298-308). -/
inductive OneWireBusError where
  | BusNotHighTimeout
  | DeviceNotPresent
  | NoResponseToSearch
  | ChecksumFailed
deriving DecidableEq, Repr

/-- One bit-step of the Dallas/Maxim 1-Wire CRC-8 (polynomial 0x31,
reflected — so the right-shifting algorithm XORs the bit-reversed
polynomial 0x8C — zero initial value).  The Rust code computes this CRC via
the `crc` crate's `CRC_8_MAXIM_DOW` (src/onewire.rs line 158); the
equivalent bitwise algorithm is spelled out in the reference implementation
kept at src/onewire.rs lines 313-343, which this definition follows:
XOR the least significant bits of the data byte and the running CRC, shift
the CRC right, and XOR in 0x8C when that bit was set. -/
def crc8_bit (crc byte : Nat) : Nat :=
  if (byte ^^^ crc) &&& 1 ≠ 0 then (crc >>> 1) ^^^ 0x8C else crc >>> 1

/-- Iterate `crc8_bit` over `n` bits of the data byte, LSB first. -/
def crc8_bits : Nat → Nat → Nat → Nat
  | 0, crc, _ => crc
  | n + 1, crc, byte => crc8_bits n (crc8_bit crc byte) (byte >>> 1)

/-- Process one full data byte (8 bit-steps) into the running CRC. -/
def crc8_update (crc byte : Nat) : Nat := crc8_bits 8 crc byte

/-- Running CRC-8 of a byte sequence, starting from the zero initial value. -/
def crc8 (data : List Nat) : Nat := data.foldl crc8_update 0

/-- `OneWireBus::check_crc8` (src/onewire.rs lines 157-163): succeed iff the
running CRC over the full byte sequence (including its trailing CRC byte)
reduces to zero, otherwise fail with `ChecksumFailed`. -/
def check_crc8 (data : List Nat) : Except OneWireBusError Unit :=
  if crc8 data ≠ 0 then .error .ChecksumFailed else .ok ()

/-- Timing constant (src/onewire.rs line 32): recovery gap between write slots. -/
def RECOVERY_TIME : Nat := 1 + 1

/-- Timing constant (src/onewire.rs line 35): duration of one write time slot. -/
def TIME_SLOT : Nat := 60 + 20

/-- Timing constant (src/onewire.rs line 42): low time of a write-1 slot. -/
def WRITE_1_LOW_TIME : Nat := 5

/-- Timing constant (src/onewire.rs line 49): low time of a write-0 slot. -/
def WRITE_0_LOW_TIME : Nat := TIME_SLOT

/-- Reset low-drive duration with 5% margin (src/onewire.rs line 177). -/
def RESET_TIME_HIGH : Nat := 480 + 24

/-- Presence-listening window with 5% margin (src/onewire.rs line 178). -/
def RESET_TIME_LOW : Nat := 480 + 24

/-- Command byte `SEARCH_NORMAL` (src/onewire.rs line 15). -/
def SEARCH_NORMAL : Nat := 0xF0

/-- Command byte `MATCH_ROM` (src/onewire.rs line 16). -/
def MATCH_ROM : Nat := 0x55

/-- All-ones 64-bit mask; `!mask` on a Rust `u64` is `UINT64_MAX ^^^ mask`. -/
def UINT64_MAX : Nat := 2 ^ 64 - 1

/-- Events observable on the open-drain GPIO pin: driving it high (releasing),
driving it low, sampling its level, and a busy-wait of the given length in
microseconds. -/
inductive PinEvent where
  | setHigh
  | setLow
  | sample (level : Bool)
  | delayMicros (us : Nat)
deriving DecidableEq, Repr

/-- Simulated electrical environment of the bus: `line k` is the level the
pin reads on its `k`-th sample.  Quantifying over `BusEnv` quantifies over
every simulated bus response sequence. -/
structure BusEnv where
  line : Nat → Bool

/-- Bus machine state: the index of the next line sample to consume, plus
the trace of pin events so far, *newest event first*. -/
structure BusST where
  idx : Nat
  trace : List PinEvent
deriving Repr

/-- `pin.set_high()` — release the open-drain bus. -/
def setHigh (s : BusST) : BusST := { s with trace := .setHigh :: s.trace }

/-- `pin.set_low()` — drive the bus low. -/
def setLow (s : BusST) : BusST := { s with trace := .setLow :: s.trace }

/-- `delay.delay_micros(us)` — a blocking busy-wait. -/
def delayMicros (us : Nat) (s : BusST) : BusST :=
  { s with trace := .delayMicros us :: s.trace }

/-- Sample the line (`pin.is_high()`); consumes the next environment sample. -/
def sampleLine (env : BusEnv) (s : BusST) : Bool × BusST :=
  (env.line s.idx, { idx := s.idx + 1, trace := .sample (env.line s.idx) :: s.trace })

/-- `OneWireBus::write_bit` (src/onewire.rs lines 239-253): pull low for the
write-1 low time (5 µs) or the full slot (80 µs), release, then wait out the
remainder of the 80 µs slot. -/
def write_bit (value : Bool) (s : BusST) : BusST :=
  if value then
    delayMicros (TIME_SLOT - WRITE_1_LOW_TIME) (setHigh (delayMicros WRITE_1_LOW_TIME (setLow s)))
  else
    delayMicros (TIME_SLOT - WRITE_0_LOW_TIME) (setHigh (delayMicros WRITE_0_LOW_TIME (setLow s)))

/-- `OneWireBus::read_bit` (src/onewire.rs lines 261-270): drive low 6 µs,
release, wait 9 µs, sample the line, wait out the remaining 55 µs. -/
def read_bit (env : BusEnv) (s : BusST) : Bool × BusST :=
  let s1 := delayMicros 9 (setHigh (delayMicros 6 (setLow s)))
  let r := sampleLine env s1
  (r.1, delayMicros 55 r.2)

/-- `OneWireBus::write_byte` (src/onewire.rs lines 221-230): eight write-bit
slots, least-significant bit first, each preceded by the recovery gap. -/
def write_byte (byte : Nat) (s : BusST) : BusST :=
  (List.range 8).foldl
    (fun s i => write_bit ((byte >>> i) &&& 1 == 1) (delayMicros RECOVERY_TIME s)) s

/-- `OneWireBus::write_bytes` (src/onewire.rs lines 232-237). -/
def write_bytes (bytes : List Nat) (s : BusST) : BusST :=
  bytes.foldl (fun s b => write_byte b s) s

/-- `u64::to_le_bytes`: the eight bytes of a 64-bit value, least significant
byte first. -/
def toLeBytes8 (x : Nat) : List Nat :=
  (List.range 8).map (fun i => (x >>> (8 * i)) &&& 0xFF)

/-- `OneWireBus::match_address` (src/onewire.rs lines 255-259): the
`MATCH_ROM` command byte followed by the eight address bytes, little-endian. -/
def match_address (address : Nat) (s : BusST) : BusST :=
  write_bytes (toLeBytes8 address) (write_byte MATCH_ROM s)

/-- `OneWireBus::read_byte` (src/onewire.rs lines 272-288): eight read-bit
slots, the bit of slot `i` placed at position `i` (LSB first). -/
def read_byte (env : BusEnv) (s : BusST) : Nat × BusST :=
  (List.range 8).foldl
    (fun acc i =>
      let r := read_bit env acc.2
      (if r.1 then acc.1 ||| (1 <<< i) else acc.1, r.2))
    (0, s)

/-- `OneWireBus::read_bytes` (src/onewire.rs lines 290-295): `n` sequential
byte reads. -/
def read_bytesN (env : BusEnv) : Nat → BusST → List Nat × BusST
  | 0, s => ([], s)
  | n + 1, s =>
    let r := read_byte env s
    let rest := read_bytesN env n r.2
    (r.1 :: rest.1, rest.2)

/-- Loop of `OneWireBus::wait_for_high` (src/onewire.rs lines 207-219): the
250 µs window with a 10 µs delay per iteration allows 25 samples
(at elapsed times 0, 10, ..., 240 µs); if none reads high the wait fails
with `BusNotHighTimeout`. -/
def wait_for_high_go (env : BusEnv) : Nat → BusST → Except OneWireBusError Unit × BusST
  | 0, s => (.error .BusNotHighTimeout, s)
  | n + 1, s =>
    let r := sampleLine env s
    if r.1 then (.ok (), r.2) else wait_for_high_go env n (delayMicros 10 r.2)

/-- `OneWireBus::wait_for_high` (src/onewire.rs lines 207-219). -/
def wait_for_high (env : BusEnv) (s : BusST) : Except OneWireBusError Unit × BusST :=
  wait_for_high_go env 25 s

/-- Presence-listening loop of `OneWireBus::reset` (src/onewire.rs lines
190-198): the 504 µs window with a 20 µs delay per iteration runs 26
iterations (elapsed 0, 20, ..., 500 µs); each iteration samples the line
only while no presence pulse has been seen yet (`if !device_present`). -/
def reset_presence_go (env : BusEnv) : Nat → Bool → BusST → Bool × BusST
  | 0, present, s => (present, s)
  | n + 1, present, s =>
    if present then reset_presence_go env n present (delayMicros 20 s)
    else
      let r := sampleLine env s
      reset_presence_go env n (!r.1) (delayMicros 20 r.2)

/-- `OneWireBus::reset` (src/onewire.rs lines 166-205): release the bus,
wait for it to float high, drive it low for 504 µs, release, then listen
504 µs for a presence pulse; `Ok` iff some sample read low. -/
def reset (env : BusEnv) (s : BusST) : Except OneWireBusError Unit × BusST :=
  let s0 := setHigh s
  match wait_for_high env s0 with
  | (.error e, s1) => (.error e, s1)
  | (.ok _, s1) =>
    let s2 := setHigh (delayMicros RESET_TIME_HIGH (setLow s1))
    let r := reset_presence_go env 26 false s2
    if r.1 then (.ok (), r.2) else (.error .DeviceNotPresent, r.2)

/-- Search loop of `OneWireBus::find_first_device` (src/onewire.rs lines
97-155) over the line environment: for each of the 64 address bits read the
bit and its complement (both inverted, the bus being active-low), decide by
the four-case table of the source, record the chosen bit in the address at
this position (LSB first), write the choice back, and finally gate the
assembled address behind `check_crc8` of its little-endian bytes. -/
def find_first_go (env : BusEnv) : Nat → Nat → Nat → BusST → Except OneWireBusError Nat × BusST
  | 0, _, address, s =>
    (match check_crc8 (toLeBytes8 address) with
     | .error e => .error e
     | .ok _ => .ok address, s)
  | n + 1, bit_index, address, s =>
    let r1 := read_bit env s
    let r2 := read_bit env r1.2
    let false_bit := !r1.1
    let true_bit := !r2.1
    match false_bit, true_bit with
    | false, false => (.error .NoResponseToSearch, r2.2)
    | false, true =>
      find_first_go env n (bit_index + 1) (address ||| (1 <<< bit_index))
        (write_bit true r2.2)
    | true, false =>
      find_first_go env n (bit_index + 1) (address &&& (UINT64_MAX ^^^ (1 <<< bit_index)))
        (write_bit false r2.2)
    | true, true =>
      find_first_go env n (bit_index + 1) (address &&& (UINT64_MAX ^^^ (1 <<< bit_index)))
        (write_bit false r2.2)

/-- `OneWireBus::find_first_device` (src/onewire.rs lines 82-155): reset,
emit the search command, then run the 64-bit search loop. -/
def find_first_device (env : BusEnv) (s : BusST) : Except OneWireBusError Nat × BusST :=
  match reset env s with
  | (.error e, s1) => (.error e, s1)
  | (.ok _, s1) => find_first_go env 64 0 0 (write_byte SEARCH_NORMAL s1)

/-- Decidable equality for `Except`, so that concrete runs of the fallible
operations can be checked by `decide`. -/
instance {ε α : Type} [DecidableEq ε] [DecidableEq α] : DecidableEq (Except ε α) := fun a b =>
  match a, b with
  | .ok x, .ok y =>
    if h : x = y then .isTrue (by rw [h]) else .isFalse (fun hh => by cases hh; exact h rfl)
  | .ok _, .error _ => .isFalse (fun hh => by cases hh)
  | .error _, .ok _ => .isFalse (fun hh => by cases hh)
  | .error x, .error y =>
    if h : x = y then .isTrue (by rw [h]) else .isFalse (fun hh => by cases hh; exact h rfl)

/-- Error type of the DS18B20 driver (src/ds18b20.rs lines 101-106). -/
inductive DS18B20Error where
  | OneWireError (e : OneWireBusError)
  | InvalidResolution
  | FamilyCodeMismatch
deriving DecidableEq, Repr

/-- Command byte `READ_SCRATCHPAD` (src/ds18b20.rs line 63). -/
def READ_SCRATCHPAD : Nat := 0xBE

/-- `Ds18b20::read_scratchpad` (src/ds18b20.rs lines 27-36): reset, match
the device address, issue the read-scratchpad command, read 9 bytes, and
validate their CRC-8 before returning them. -/
def read_scratchpad (env : BusEnv) (address : Nat) (s : BusST) :
    Except DS18B20Error (List Nat) × BusST :=
  match reset env s with
  | (.error e, s1) => (.error (.OneWireError e), s1)
  | (.ok _, s1) =>
    let s2 := write_byte READ_SCRATCHPAD (match_address address s1)
    let r := read_bytesN env 9 s2
    match check_crc8 r.1 with
    | .error e => (.error (.OneWireError e), r.2)
    | .ok _ => (.ok r.1, r.2)

/-- The nine bytes `read_scratchpad` reads off the bus after a successful
reset, as a function of the environment (used to state what
`read_scratchpad` does when the CRC of exactly these bytes fails). -/
def scratch_bytes (env : BusEnv) (address : Nat) (s : BusST) : List Nat :=
  (read_bytesN env 9 (write_byte READ_SCRATCHPAD (match_address address (reset env s).2))).1

/-- `Resolution` (src/ds18b20.rs lines 68-75). -/
inductive Resolution where
  | Bits9
  | Bits10
  | Bits11
  | Bits12
deriving DecidableEq, Repr

/-- `Resolution::max_measurement_time` (src/ds18b20.rs lines 78-85), in
milliseconds (the source wraps the same numbers in `Duration::from_millis`). -/
def Resolution.max_measurement_time : Resolution → Nat
  | .Bits9 => 94
  | .Bits10 => 188
  | .Bits11 => 375
  | .Bits12 => 750

/-- `TryFrom<u8> for Resolution` (src/ds18b20.rs lines 87-99): the four
configuration bit patterns, everything else `InvalidResolution`. -/
def Resolution.tryFrom (value : Nat) : Except DS18B20Error Resolution :=
  if value = 0x1F then .ok .Bits9
  else if value = 0x3F then .ok .Bits10
  else if value = 0x5F then .ok .Bits11
  else if value = 0x7F then .ok .Bits12
  else .error .InvalidResolution

/-- `i16::from_le_bytes([lo, hi])`: two's-complement decode of a 16-bit
little-endian value. -/
def toI16 (lo hi : Nat) : Int :=
  let u := lo % 256 + 256 * (hi % 256)
  if u < 32768 then (u : Int) else (u : Int) - 65536

/-- `i8::from_le_bytes([b])`: two's-complement decode of one byte. -/
def toI8 (b : Nat) : Int :=
  if b % 256 < 128 then (b % 256 : Int) else (b % 256 : Int) - 256

/-- The divisor applied to the raw register for each resolution, from the
`match` in `Ds18b20::read_sensor_data` (src/ds18b20.rs lines 44-49). -/
def Resolution.divisor : Resolution → ℚ
  | .Bits12 => 16
  | .Bits11 => 8
  | .Bits10 => 4
  | .Bits9 => 2

/-- `SensorData` (src/ds18b20.rs lines 114-128).  The `f32` temperature is
embedded as `ℚ`; this is exact because the decoded value is a 16-bit signed
integer divided by a power of two, both exactly representable in `f32`. -/
structure SensorData where
  temperature : ℚ
  resolution : Resolution
  alarm_temp_low : Int
  alarm_temp_high : Int
deriving DecidableEq, Repr

/-- Pure decoding part of `Ds18b20::read_sensor_data` (src/ds18b20.rs lines
41-57): resolution from scratchpad byte 4, raw temperature from bytes 0-1
(little-endian, two's complement) divided by the resolution's divisor,
alarm thresholds from bytes 2-3 as signed 8-bit values. -/
def decode_sensor_data (scratchpad : List Nat) : Except DS18B20Error SensorData :=
  match Resolution.tryFrom (scratchpad.getD 4 0) with
  | .error e => .error e
  | .ok resolution =>
    let raw := toI16 (scratchpad.getD 0 0) (scratchpad.getD 1 0)
    .ok { temperature := (raw : ℚ) / resolution.divisor
          resolution := resolution
          alarm_temp_high := toI8 (scratchpad.getD 2 0)
          alarm_temp_low := toI8 (scratchpad.getD 3 0) }

/-- `Ds18b20::read_sensor_data` (src/ds18b20.rs lines 38-57): read the
scratchpad, then decode it. -/
def read_sensor_data (env : BusEnv) (address : Nat) (s : BusST) :
    Except DS18B20Error SensorData × BusST :=
  match read_scratchpad env address s with
  | (.error e, s1) => (.error e, s1)
  | (.ok scratchpad, s1) => (decode_sensor_data scratchpad, s1)

/-- Device-level simulation of the search loop of
`OneWireBus::find_first_device` (src/onewire.rs lines 97-155): the bus
carries the given still-participating devices; in the normal bit slot the
open-drain line reads high iff every participant has bit `bit_index` set,
in the complement slot iff every participant has it clear (a device pulls
the line low to send a 0, and the wired-AND of all responses is read).
After each chosen bit is written back, devices that do not match drop out.
The decision table, address assembly and final CRC gate are those of the
source. -/
def search_go : Nat → Nat → Nat → List Nat → Except OneWireBusError Nat
  | 0, _, address, _ =>
    (match check_crc8 (toLeBytes8 address) with
     | .error e => .error e
     | .ok _ => .ok address)
  | n + 1, bit_index, address, participants =>
    let false_bit := !(participants.all (fun d => d.testBit bit_index))
    let true_bit := !(participants.all (fun d => !(d.testBit bit_index)))
    match false_bit, true_bit with
    | false, false => .error .NoResponseToSearch
    | false, true =>
      search_go n (bit_index + 1) (address ||| (1 <<< bit_index))
        (participants.filter (fun d => d.testBit bit_index))
    | true, false =>
      search_go n (bit_index + 1) (address &&& (UINT64_MAX ^^^ (1 <<< bit_index)))
        (participants.filter (fun d => !(d.testBit bit_index)))
    | true, true =>
      search_go n (bit_index + 1) (address &&& (UINT64_MAX ^^^ (1 <<< bit_index)))
        (participants.filter (fun d => !(d.testBit bit_index)))

/-- `find_first_device` run against a simulated bus populated with the given
devices (reset and search-command emission assumed to have succeeded, which
they do whenever at least one device is present). -/
def find_first_device_sim (devices : List Nat) : Except OneWireBusError Nat :=
  search_go 64 0 0 devices

/-- Order in which the search discovers devices: `a` precedes `b` when they
are equal or when, at the lowest bit position where they differ, `a` has 0
and `b` has 1 (LSB-first lexicographic order on the bit sequence). -/
def lsbLexLe (a b : Nat) : Prop :=
  a = b ∨ ∃ i, a.testBit i = false ∧ b.testBit i = true ∧
    ∀ j < i, a.testBit j = b.testBit j

/-- The sequence of bit values `OneWireBus::write_byte` (src/onewire.rs
lines 221-230) emits for a byte: bit `i` of the byte at step `i`,
least-significant bit first. -/
def write_byte_bits (byte : Nat) : List Bool :=
  (List.range 8).map (fun i => (byte >>> i) &&& 1 == 1)

/-- The byte `OneWireBus::read_byte` (src/onewire.rs lines 272-288)
assembles from the eight bits read off the bus: the bit of slot `i` is
placed at position `i` (LSB first). -/
def read_byte_from (bits : List Bool) : Nat :=
  (List.range 8).foldl (fun acc i => if bits.getD i false then acc ||| (1 <<< i) else acc) 0

/-- `CHECKSUM_RETRIES` (src/task/temp_sensor.rs line 29). -/
def CHECKSUM_RETRIES : Nat := 3

/-- The guard of the retry arm in the sampling loop
(src/task/temp_sensor.rs line 63): only
`Err(Ds18b20Error::OneWireError(OneWireBusError::ChecksumFailed))` matches. -/
def is_checksum_error : Except DS18B20Error SensorData → Bool
  | .error (.OneWireError .ChecksumFailed) => true
  | _ => false

/-- The `'checksum_retries` loop of the `temp_sensor` task
(src/task/temp_sensor.rs lines 42-73): `attempt r` is the outcome of the
conversion-plus-read cycle performed with the retry counter at `r`; the
loop retries exactly when that outcome is a checksum error and fewer than
`CHECKSUM_RETRIES` retries have been used.  Returns the final outcome, the
final retry counter, and the total number of attempts performed. -/
def sample_cycle_go (attempt : Nat → Except DS18B20Error SensorData)
    (retries calls : Nat) : Except DS18B20Error SensorData × Nat × Nat :=
  let reading := attempt retries
  if is_checksum_error reading ∧ retries < CHECKSUM_RETRIES then
    sample_cycle_go attempt (retries + 1) (calls + 1)
  else
    (reading, retries, calls + 1)
termination_by CHECKSUM_RETRIES + 1 - retries
decreasing_by simp_wf; omega

/-- One sampling cycle, starting with a fresh retry counter
(src/task/temp_sensor.rs line 42). -/
def sample_cycle (attempt : Nat → Except DS18B20Error SensorData) :
    Except DS18B20Error SensorData × Nat × Nat :=
  sample_cycle_go attempt 0 0

/-- `TemperatureReading` (src/task/temp_sensor.rs lines 13-18), without the
wall-clock timestamp. -/
structure TemperatureReading where
  temperature : Except DS18B20Error ℚ
  retries : Nat
deriving DecidableEq, Repr

/-- Construction of the published reading (src/task/temp_sensor.rs lines
76-80): the temperature is pulled out of the sensor reading, the retry
counter is carried along. -/
def publish_reading (r : Except DS18B20Error SensorData × Nat × Nat) : TemperatureReading :=
  { temperature := r.1.map SensorData.temperature, retries := r.2.1 }

/-- Pin events that drive the line (as opposed to sampling or waiting). -/
def isDrive : PinEvent → Bool
  | .setHigh => true
  | .setLow => true
  | .sample _ => false
  | .delayMicros _ => false

/-- The most recent driving event of a trace (traces are newest-first). -/
def lastDrive (t : List PinEvent) : Option PinEvent :=
  (t.filter isDrive).head?

/-- The bus is released: the most recent drive of the pin set it high. -/
def endsReleased (s : BusST) : Prop := lastDrive s.trace = some .setHigh

theorem and_one_lt_two (x : Nat) : x &&& 1 < 2 := by
  rw [Nat.and_one_is_mod]; exact Nat.mod_lt _ (by decide)

theorem shiftRight_one_xor (x y : Nat) : (x ^^^ y) >>> 1 = x >>> 1 ^^^ y >>> 1 := by
  apply Nat.eq_of_testBit_eq
  intro i
  simp [Nat.testBit_shiftRight, Nat.testBit_xor]

theorem nat_xor_left_comm (a b c : Nat) : a ^^^ (b ^^^ c) = b ^^^ (a ^^^ c) := by
  rw [← Nat.xor_assoc, Nat.xor_comm a b, Nat.xor_assoc]

theorem nat_xor_cancel_left (a b : Nat) : a ^^^ (a ^^^ b) = b := by
  rw [← Nat.xor_assoc, Nat.xor_self, Nat.zero_xor]

theorem crc8_bit_lin (c d b e : Nat) :
    crc8_bit (c ^^^ d) (b ^^^ e) = crc8_bit c b ^^^ crc8_bit d e := by
  unfold crc8_bit
  have hrearr : (b ^^^ e) ^^^ (c ^^^ d) = (b ^^^ c) ^^^ (e ^^^ d) := by
    rw [Nat.xor_assoc, Nat.xor_assoc]
    congr 1
    rw [← Nat.xor_assoc, ← Nat.xor_assoc, Nat.xor_comm e c]
  have hand : ((b ^^^ e) ^^^ (c ^^^ d)) &&& 1 = ((b ^^^ c) &&& 1) ^^^ ((e ^^^ d) &&& 1) := by
    rw [hrearr, Nat.and_xor_distrib_right]
  have h1 : (b ^^^ c) &&& 1 = 0 ∨ (b ^^^ c) &&& 1 = 1 := by
    have := and_one_lt_two (b ^^^ c); omega
  have h2 : (e ^^^ d) &&& 1 = 0 ∨ (e ^^^ d) &&& 1 = 1 := by
    have := and_one_lt_two (e ^^^ d); omega
  rcases h1 with h1 | h1 <;> rcases h2 with h2 | h2 <;>
    simp only [hand, h1, h2, Nat.zero_xor, Nat.xor_zero, Nat.xor_self, ne_eq,
      if_true, if_false, not_true_eq_false, not_false_eq_true, shiftRight_one_xor,
      one_ne_zero, zero_ne_one, ite_true, ite_false, decide_True, decide_False] <;>
    simp [Nat.xor_assoc, Nat.xor_comm, nat_xor_left_comm, nat_xor_cancel_left]

theorem crc8_bits_lin : ∀ (n c d b e : Nat),
    crc8_bits n (c ^^^ d) (b ^^^ e) = crc8_bits n c b ^^^ crc8_bits n d e := by
  intro n
  induction n with
  | zero => intro c d b e; rfl
  | succ n ih =>
    intro c d b e
    simp only [crc8_bits]
    rw [crc8_bit_lin, shiftRight_one_xor]
    exact ih _ _ _ _

theorem crc8_update_lin (c d b e : Nat) :
    crc8_update (c ^^^ d) (b ^^^ e) = crc8_update c b ^^^ crc8_update d e :=
  crc8_bits_lin 8 c d b e

theorem crc8_foldl_lin : ∀ (xs ys : List Nat) (c d : Nat), xs.length = ys.length →
    (List.zipWith Nat.xor xs ys).foldl crc8_update (c ^^^ d) =
      xs.foldl crc8_update c ^^^ ys.foldl crc8_update d := by
  intro xs
  induction xs with
  | nil =>
    intro ys c d h
    cases ys with
    | nil => rfl
    | cons y ys => simp at h
  | cons x xs ih =>
    intro ys c d h
    cases ys with
    | nil => simp at h
    | cons y ys =>
      simp only [List.zipWith, List.foldl]
      rw [show crc8_update (c ^^^ d) (Nat.xor x y) = crc8_update c x ^^^ crc8_update d y from
        crc8_update_lin c d x y]
      exact ih ys _ _ (by simpa using h)

theorem crc8_bit_lt (c b : Nat) (h : c < 256) : crc8_bit c b < 256 := by
  have h1 : c >>> 1 < 256 :=
    Nat.lt_of_le_of_lt (by rw [Nat.shiftRight_eq_div_pow]; exact Nat.div_le_self _ _) h
  unfold crc8_bit
  split
  · have h2 : (0x8C : Nat) < 2 ^ 8 := by decide
    exact Nat.xor_lt_two_pow (n := 8) h1 h2
  · exact h1

theorem crc8_bits_lt : ∀ (n c b : Nat), c < 256 → crc8_bits n c b < 256 := by
  intro n
  induction n with
  | zero => intro c b h; exact h
  | succ n ih =>
    intro c b h
    simp only [crc8_bits]
    exact ih _ _ (crc8_bit_lt c b h)

theorem crc8_update_lt (c b : Nat) (h : c < 256) : crc8_update c b < 256 :=
  crc8_bits_lt 8 c b h

theorem crc8_foldl_lt : ∀ (data : List Nat) (init : Nat), init < 256 →
    data.foldl crc8_update init < 256 := by
  intro data
  induction data with
  | nil => intro init h; exact h
  | cons x xs ih =>
    intro init h
    simp only [List.foldl]
    exact ih _ (crc8_update_lt init x h)

theorem crc8_lt_256 (data : List Nat) : crc8 data < 256 :=
  crc8_foldl_lt data 0 (by decide)

theorem crc8_update_self_fin : ∀ c : Fin 256, crc8_update c.1 c.1 = 0 := by decide

theorem crc8_update_self (c : Nat) (h : c < 256) : crc8_update c c = 0 :=
  crc8_update_self_fin ⟨c, h⟩

theorem crc8_append_crc (data : List Nat) : crc8 (data ++ [crc8 data]) = 0 := by
  show (data ++ [crc8 data]).foldl crc8_update 0 = 0
  rw [List.foldl_append]
  exact crc8_update_self _ (crc8_lt_256 data)

theorem nat_xor_zero (x : Nat) : Nat.xor x 0 = x := Nat.xor_zero x

theorem zipWith_xor_replicate_zero : ∀ xs : List Nat,
    List.zipWith Nat.xor xs (List.replicate xs.length 0) = xs := by
  intro xs
  induction xs with
  | nil => rfl
  | cons x xs ih =>
    simp only [List.length_cons, List.replicate, List.zipWith, nat_xor_zero, ih]

theorem set_eq_zipWith : ∀ (xs : List Nat) (j v : Nat), j < xs.length →
    xs.set j (xs.getD j 0 ^^^ v) =
      List.zipWith Nat.xor xs ((List.replicate xs.length 0).set j v) := by
  intro xs
  induction xs with
  | nil => intro j v h; simp at h
  | cons x xs ih =>
    intro j v h
    cases j with
    | zero =>
      simp only [List.set, List.getD_cons_zero, List.length_cons, List.replicate, List.zipWith]
      exact congrArg _ (zipWith_xor_replicate_zero xs).symm
    | succ j =>
      simp only [List.set, List.getD_cons_succ, List.length_cons, List.replicate, List.zipWith,
        nat_xor_zero]
      exact congrArg _ (ih j v (Nat.lt_of_succ_lt_succ h))

theorem flip_pattern_nonzero :
    ∀ p : Fin 9 × Fin 8, crc8 ((List.replicate 9 0).set p.1.1 (1 <<< p.2.1)) ≠ 0 := by decide

theorem crc8_flip_ne_zero (xs : List Nat) (hlen : xs.length = 9) (h0 : crc8 xs = 0)
    (j : Fin 9) (k : Fin 8) :
    crc8 (xs.set j.1 (xs.getD j.1 0 ^^^ (1 <<< k.1))) ≠ 0 := by
  rw [set_eq_zipWith xs j.1 _ (by rw [hlen]; exact j.2), hlen]
  have hlin := crc8_foldl_lin xs ((List.replicate 9 0).set j.1 (1 <<< k.1)) 0 0
    (by simp [hlen])
  have hz : (0 : Nat) ^^^ 0 = 0 := rfl
  rw [hz] at hlin
  show (List.zipWith Nat.xor xs ((List.replicate 9 0).set j.1 (1 <<< k.1))).foldl crc8_update 0 ≠ 0
  rw [hlin]
  show crc8 xs ^^^ crc8 ((List.replicate 9 0).set j.1 (1 <<< k.1)) ≠ 0
  rw [h0, Nat.zero_xor]
  exact flip_pattern_nonzero (j, k)

theorem check_crc8_eq_ok_iff (data : List Nat) : check_crc8 data = .ok () ↔ crc8 data = 0 := by
  unfold check_crc8
  split
  · rename_i h
    exact ⟨(fun hh => nomatch hh), fun hh => absurd hh h⟩
  · rename_i h
    simp only [ne_eq, Decidable.not_not] at h
    exact ⟨fun _ => h, fun _ => rfl⟩

theorem check_crc8_eq_error_of_ne (data : List Nat) (h : crc8 data ≠ 0) :
    check_crc8 data = .error .ChecksumFailed := by
  unfold check_crc8
  split
  · rfl
  · rename_i hh
    simp only [ne_eq, Decidable.not_not] at hh
    exact absurd hh h

/-- Claim C2: for every 9-byte sequence whose 9th byte is the Dallas/Maxim
1-Wire CRC-8 (polynomial 0x31, reflected, zero initial value) of the first
8 bytes, `check_crc8` over all 9 bytes returns `Ok`; flipping any single
bit of the 72 bits (byte `j`, bit `k`) of such a valid sequence makes
`check_crc8` return `ChecksumFailed`; and in general `check_crc8 data`
succeeds iff the running CRC over the full sequence, its trailing CRC byte
included, reduces to zero. -/
theorem check_crc8_roundtrip_and_flip (b0 b1 b2 b3 b4 b5 b6 b7 : Nat) (j : Fin 9) (k : Fin 8) :
    check_crc8 ([b0, b1, b2, b3, b4, b5, b6, b7] ++ [crc8 [b0, b1, b2, b3, b4, b5, b6, b7]]) =
      .ok () ∧
    check_crc8 (([b0, b1, b2, b3, b4, b5, b6, b7] ++ [crc8 [b0, b1, b2, b3, b4, b5, b6, b7]]).set
        j.1 ((([b0, b1, b2, b3, b4, b5, b6, b7] ++
          [crc8 [b0, b1, b2, b3, b4, b5, b6, b7]]).getD j.1 0) ^^^ (1 <<< k.1))) =
      .error .ChecksumFailed ∧
    (∀ data : List Nat, check_crc8 data = .ok () ↔ crc8 data = 0) := by
  refine ⟨?_, ?_, check_crc8_eq_ok_iff⟩
  · exact (check_crc8_eq_ok_iff _).mpr (crc8_append_crc _)
  · exact check_crc8_eq_error_of_ne _
      (crc8_flip_ne_zero _ (by simp) (crc8_append_crc _) j k)

/-- Claim C10: `check_crc8` is total in the length of its input — every
byte list is either accepted or rejected with `ChecksumFailed` — and the
empty sequence passes the check, since the zero initial CRC value already
reduces to zero. -/
theorem check_crc8_empty_ok :
    check_crc8 [] = .ok () ∧ crc8 [] = 0 ∧
    (∀ data : List Nat,
      check_crc8 data = .ok () ∨ check_crc8 data = .error .ChecksumFailed) := by
  refine ⟨by decide, rfl, ?_⟩
  intro data
  unfold check_crc8
  split
  · exact .inr rfl
  · exact .inl rfl

theorem write_read_byte_fin : ∀ b : Fin 256,
    (write_byte_bits b.1).length = 8 ∧
    (∀ i : Fin 8, (write_byte_bits b.1).getD i.1 false = b.1.testBit i.1) ∧
    read_byte_from (write_byte_bits b.1) = b.1 := by decide

/-- Claim C3: `write_byte` emits exactly eight bit operations in
least-significant-bit-first order (bit `i` of the byte at step `i`), and
`read_byte` assembles eight bits into a byte in the same LSB-first order,
so over a loopback bus in which each read returns the last written bit,
reading back a written byte reproduces it. -/
theorem write_read_byte_lsb_first (b : Nat) (hb : b < 256) :
    (write_byte_bits b).length = 8 ∧
    (∀ i : Fin 8, (write_byte_bits b).getD i.1 false = b.testBit i.1) ∧
    read_byte_from (write_byte_bits b) = b :=
  write_read_byte_fin ⟨b, hb⟩

/-- Witness for claim C3 at the spec's example byte `0b10110000`. -/
theorem write_read_byte_lsb_first_witness :
    read_byte_from (write_byte_bits 176) = 176 :=
  (write_read_byte_lsb_first 176 (by decide)).2.2

/-- Claim C6: decoding a configuration byte succeeds exactly for
`0x1F, 0x3F, 0x5F, 0x7F`, yielding `Bits9..Bits12` with maximum
measurement times 94/188/375/750 ms; every other byte value fails with
`InvalidResolution`. -/
theorem resolution_decode_spec :
    Resolution.tryFrom 0x1F = .ok .Bits9 ∧
    Resolution.tryFrom 0x3F = .ok .Bits10 ∧
    Resolution.tryFrom 0x5F = .ok .Bits11 ∧
    Resolution.tryFrom 0x7F = .ok .Bits12 ∧
    Resolution.Bits9.max_measurement_time = 94 ∧
    Resolution.Bits10.max_measurement_time = 188 ∧
    Resolution.Bits11.max_measurement_time = 375 ∧
    Resolution.Bits12.max_measurement_time = 750 ∧
    (∀ b : Fin 256, b.1 ≠ 0x1F → b.1 ≠ 0x3F → b.1 ≠ 0x5F → b.1 ≠ 0x7F →
      Resolution.tryFrom b.1 = .error .InvalidResolution) := by decide

/-- Witness for claim C6 at the non-pattern byte 0x42. -/
theorem resolution_decode_spec_witness :
    Resolution.tryFrom 0x42 = .error .InvalidResolution :=
  resolution_decode_spec.2.2.2.2.2.2.2.2 ⟨0x42, by decide⟩
    (by decide) (by decide) (by decide) (by decide)

/-- Claim C5: `read_sensor_data` decodes the temperature as the signed
16-bit two's-complement value formed little-endian from scratchpad bytes 0
and 1, divided by the resolution's fixed divisor (16/8/4/2 for 12/11/10/9
bits), and bytes 2 and 3 as signed 8-bit alarm-high and alarm-low
thresholds; raw register 0x0550 at Bits12 decodes to 85 °C and 0xFFFE at
Bits12 to -0.125 °C, with no special-casing of the power-on value. -/
theorem read_sensor_data_decode (b0 b1 b2 b3 cfg b5 b6 b7 b8 : Nat) (r : Resolution)
    (hc : Resolution.tryFrom cfg = .ok r) :
    decode_sensor_data [b0, b1, b2, b3, cfg, b5, b6, b7, b8] =
      .ok { temperature := (toI16 b0 b1 : ℚ) / r.divisor
            resolution := r
            alarm_temp_high := toI8 b2
            alarm_temp_low := toI8 b3 } ∧
    decode_sensor_data [0x50, 0x05, 0, 0, 0x7F, 0, 0, 0, 0] =
      .ok { temperature := 85
            resolution := .Bits12
            alarm_temp_high := 0
            alarm_temp_low := 0 } ∧
    decode_sensor_data [0xFE, 0xFF, 0, 0, 0x7F, 0, 0, 0, 0] =
      .ok { temperature := -(1 / 8 : ℚ)
            resolution := .Bits12
            alarm_temp_high := 0
            alarm_temp_low := 0 } ∧
    (∀ (env : BusEnv) (addr : Nat) (s : BusST),
      (read_sensor_data env addr s).1 =
        match (read_scratchpad env addr s).1 with
        | .error e => .error e
        | .ok scratchpad => decode_sensor_data scratchpad) := by
  refine ⟨?_, ?_, ?_, ?_⟩
  · unfold decode_sensor_data
    simp only [List.getD_cons_zero, List.getD_cons_succ]
    rw [hc]
  · unfold decode_sensor_data Resolution.tryFrom
    norm_num [toI16, toI8, Resolution.divisor]
  · unfold decode_sensor_data Resolution.tryFrom
    norm_num [toI16, toI8, Resolution.divisor]
  · intro env addr s
    unfold read_sensor_data
    rcases h : read_scratchpad env addr s with ⟨r1, s1⟩
    cases r1 <;> simp [h]

/-- Witness for claim C5 at the power-on scratchpad (raw 0x0550, Bits12). -/
theorem read_sensor_data_decode_witness :
    decode_sensor_data [0x50, 0x05, 0, 0, 0x7F, 0, 0, 0, 0] =
      .ok { temperature := (toI16 0x50 0x05 : ℚ) / Resolution.Bits12.divisor
            resolution := .Bits12
            alarm_temp_high := toI8 0
            alarm_temp_low := toI8 0 } :=
  (read_sensor_data_decode 0x50 0x05 0 0 0x7F 0 0 0 0 .Bits12 (by decide)).1

/-- Claim C7: in each sampling cycle the policy retries the whole
conversion-plus-read cycle only on `ChecksumFailed`, up to 3 retries; any
other outcome ends the cycle at once; with a driver that always fails the
checksum, exactly 1 + 3 = 4 attempts are made and the published reading
carries the checksum error with retry count 3; every retry that was
performed was caused by a checksum-failed attempt and the retry count never
exceeds 3. -/
theorem sample_cycle_spec (attempt : Nat → Except DS18B20Error SensorData) :
    (sample_cycle attempt).2.2 = (sample_cycle attempt).2.1 + 1 ∧
    (sample_cycle attempt).2.1 ≤ CHECKSUM_RETRIES ∧
    (∀ i < (sample_cycle attempt).2.1, is_checksum_error (attempt i) = true) ∧
    (sample_cycle attempt).1 = attempt (sample_cycle attempt).2.1 ∧
    (is_checksum_error (sample_cycle attempt).1 = true →
      (sample_cycle attempt).2.1 = CHECKSUM_RETRIES) ∧
    ((∀ i, attempt i = .error (.OneWireError .ChecksumFailed)) →
      sample_cycle attempt = (.error (.OneWireError .ChecksumFailed), 3, 4)) ∧
    (publish_reading (sample_cycle attempt)).retries ≤ CHECKSUM_RETRIES ∧
    (publish_reading (sample_cycle attempt)).retries = (sample_cycle attempt).2.1 := by
  have hstep : ∀ r c, is_checksum_error (attempt r) = true → r < CHECKSUM_RETRIES →
      sample_cycle_go attempt r c = sample_cycle_go attempt (r + 1) (c + 1) := by
    intro r c h hr
    rw [sample_cycle_go]
    simp [h, hr]
  have hstop : ∀ r c, (is_checksum_error (attempt r) = true → ¬(r < CHECKSUM_RETRIES)) →
      sample_cycle_go attempt r c = (attempt r, r, c + 1) := by
    intro r c h
    rw [sample_cycle_go]
    by_cases hch : is_checksum_error (attempt r) = true
    · simp [hch, h hch]
    · simp [hch]
  by_cases h0 : is_checksum_error (attempt 0) = true
  · by_cases h1 : is_checksum_error (attempt 1) = true
    · by_cases h2 : is_checksum_error (attempt 2) = true
      · by_cases h3 : is_checksum_error (attempt 3) = true
        · have hR : sample_cycle attempt = (attempt 3, 3, 4) := by
            unfold sample_cycle
            rw [hstep 0 0 h0 (by decide), hstep 1 1 h1 (by decide),
              hstep 2 2 h2 (by decide), hstop 3 3 (fun _ h => by exact absurd h (by decide))]
          rw [hR]
          refine ⟨rfl, by simp [CHECKSUM_RETRIES], ?_, rfl, fun _ => rfl, ?_, by simp [publish_reading, CHECKSUM_RETRIES], by simp [publish_reading]⟩
          · intro i hi
            interval_cases i <;> assumption
          · intro hall
            rw [hall 3]
        · have hR : sample_cycle attempt = (attempt 3, 3, 4) := by
            unfold sample_cycle
            rw [hstep 0 0 h0 (by decide), hstep 1 1 h1 (by decide),
              hstep 2 2 h2 (by decide), hstop 3 3 (fun hh _ => absurd hh h3)]
          rw [hR]
          refine ⟨rfl, by simp [CHECKSUM_RETRIES], ?_, rfl, fun _ => rfl, ?_, by simp [publish_reading, CHECKSUM_RETRIES], by simp [publish_reading]⟩
          · intro i hi
            interval_cases i <;> assumption
          · intro hall
            rw [hall 3]
      · have hR : sample_cycle attempt = (attempt 2, 2, 3) := by
          unfold sample_cycle
          rw [hstep 0 0 h0 (by decide), hstep 1 1 h1 (by decide),
            hstop 2 2 (fun hh _ => absurd hh h2)]
        rw [hR]
        refine ⟨rfl, by simp [CHECKSUM_RETRIES], ?_, rfl, fun hh => absurd hh h2, ?_, by simp [publish_reading, CHECKSUM_RETRIES], by simp [publish_reading]⟩
        · intro i hi
          interval_cases i <;> assumption
        · intro hall
          exact absurd (by rw [hall 2]; rfl) h2
    · have hR : sample_cycle attempt = (attempt 1, 1, 2) := by
        unfold sample_cycle
        rw [hstep 0 0 h0 (by decide), hstop 1 1 (fun hh _ => absurd hh h1)]
      rw [hR]
      refine ⟨rfl, by simp [CHECKSUM_RETRIES], ?_, rfl, fun hh => absurd hh h1, ?_, by simp [publish_reading, CHECKSUM_RETRIES], by simp [publish_reading]⟩
      · intro i hi
        interval_cases i
        assumption
      · intro hall
        exact absurd (by rw [hall 1]; rfl) h1
  · have hR : sample_cycle attempt = (attempt 0, 0, 1) := by
      unfold sample_cycle
      rw [hstop 0 0 (fun hh _ => absurd hh h0)]
    rw [hR]
    refine ⟨rfl, by simp [CHECKSUM_RETRIES], ?_, rfl, fun hh => absurd hh h0, ?_, by simp [publish_reading, CHECKSUM_RETRIES], by simp [publish_reading]⟩
    · intro i hi
      simp at hi
    · intro hall
      exact absurd (by rw [hall 0]; rfl) h0

/-- Witness for claim C7: a driver that always fails the checksum yields
exactly four attempts and retry count 3. -/
theorem sample_cycle_spec_witness :
    sample_cycle (fun _ => .error (.OneWireError .ChecksumFailed)) =
      (.error (.OneWireError .ChecksumFailed), 3, 4) :=
  (sample_cycle_spec (fun _ => .error (.OneWireError .ChecksumFailed))).2.2.2.2.2.1
    (fun _ => rfl)

theorem lastDrive_setHigh (s : BusST) : lastDrive (setHigh s).trace = some .setHigh := by
  simp [setHigh, lastDrive, List.filter_cons, isDrive]

theorem lastDrive_setLow (s : BusST) : lastDrive (setLow s).trace = some .setLow := by
  simp [setLow, lastDrive, List.filter_cons, isDrive]

theorem lastDrive_delay (us : Nat) (s : BusST) :
    lastDrive (delayMicros us s).trace = lastDrive s.trace := by
  simp [delayMicros, lastDrive, List.filter_cons, isDrive]

theorem lastDrive_sample (env : BusEnv) (s : BusST) :
    lastDrive (sampleLine env s).2.trace = lastDrive s.trace := by
  simp [sampleLine, lastDrive, List.filter_cons, isDrive]

theorem endsReleased_write_bit (v : Bool) (s : BusST) : endsReleased (write_bit v s) := by
  unfold write_bit endsReleased
  split <;> rw [lastDrive_delay, lastDrive_setHigh]

theorem endsReleased_read_bit (env : BusEnv) (s : BusST) : endsReleased (read_bit env s).2 := by
  unfold read_bit endsReleased
  rw [lastDrive_delay, lastDrive_sample, lastDrive_delay, lastDrive_setHigh]

theorem foldl_endsReleased {α : Type} (f : BusST → α → BusST)
    (hf : ∀ s a, endsReleased (f s a)) :
    ∀ (l : List α) (s : BusST), l ≠ [] → endsReleased (l.foldl f s) := by
  intro l
  induction l with
  | nil => intro s h; exact absurd rfl h
  | cons a l ih =>
    intro s h
    cases l with
    | nil => exact hf s a
    | cons b t => exact ih (f s a) (by simp)

theorem foldl_endsReleased_pair {α β : Type} (g : β × BusST → α → β × BusST)
    (hg : ∀ p a, endsReleased (g p a).2) :
    ∀ (l : List α) (p : β × BusST), l ≠ [] → endsReleased (l.foldl g p).2 := by
  intro l
  induction l with
  | nil => intro p h; exact absurd rfl h
  | cons a l ih =>
    intro p h
    cases l with
    | nil => exact hg p a
    | cons b t => exact ih (g p a) (by simp)

theorem endsReleased_write_byte (byte : Nat) (s : BusST) : endsReleased (write_byte byte s) :=
  foldl_endsReleased _ (fun s i => endsReleased_write_bit _ _) (List.range 8) s (by decide)

theorem endsReleased_write_bytes (bytes : List Nat) (s : BusST) (h : endsReleased s) :
    endsReleased (write_bytes bytes s) := by
  induction bytes generalizing s with
  | nil => exact h
  | cons b bs ih => exact ih (write_byte b s) (endsReleased_write_byte b s)

theorem endsReleased_match_address (addr : Nat) (s : BusST) :
    endsReleased (match_address addr s) :=
  endsReleased_write_bytes _ _ (endsReleased_write_byte _ _)

theorem endsReleased_read_byte (env : BusEnv) (s : BusST) : endsReleased (read_byte env s).2 :=
  foldl_endsReleased_pair _ (fun p i => endsReleased_read_bit env p.2) (List.range 8) (0, s)
    (by decide)

theorem endsReleased_read_bytesN (env : BusEnv) :
    ∀ (n : Nat) (s : BusST), endsReleased s → endsReleased (read_bytesN env n s).2 := by
  intro n
  induction n with
  | zero => intro s h; exact h
  | succ n ih => intro s h; exact ih (read_byte env s).2 (endsReleased_read_byte env s)

theorem lastDrive_wait_go (env : BusEnv) :
    ∀ (n : Nat) (s : BusST),
      lastDrive ((wait_for_high_go env n s).2.trace) = lastDrive s.trace := by
  intro n
  induction n with
  | zero => intro s; rfl
  | succ n ih =>
    intro s
    simp only [wait_for_high_go]
    split
    · exact lastDrive_sample env s
    · rw [ih, lastDrive_delay, lastDrive_sample]

theorem lastDrive_presence_go (env : BusEnv) :
    ∀ (n : Nat) (p : Bool) (s : BusST),
      lastDrive ((reset_presence_go env n p s).2.trace) = lastDrive s.trace := by
  intro n
  induction n with
  | zero => intro p s; rfl
  | succ n ih =>
    intro p s
    simp only [reset_presence_go]
    split
    · rw [ih, lastDrive_delay]
    · rw [ih, lastDrive_delay, lastDrive_sample]

theorem endsReleased_reset (env : BusEnv) (s : BusST) : endsReleased (reset env s).2 := by
  simp only [reset]
  split
  · rename_i e s1 heq
    show endsReleased s1
    have hh := lastDrive_wait_go env 25 (setHigh s)
    rw [show wait_for_high_go env 25 (setHigh s) = wait_for_high env (setHigh s) from rfl,
      heq] at hh
    show lastDrive s1.trace = some .setHigh
    rw [show lastDrive (((Except.error e : Except OneWireBusError Unit), s1).2.trace)
        = lastDrive s1.trace from rfl] at hh
    rw [hh, lastDrive_setHigh]
  · rename_i u s1 heq
    split <;>
      · show endsReleased (reset_presence_go env 26 false
          (setHigh (delayMicros RESET_TIME_HIGH (setLow s1)))).2
        show lastDrive (reset_presence_go env 26 false
          (setHigh (delayMicros RESET_TIME_HIGH (setLow s1)))).2.trace = some .setHigh
        rw [lastDrive_presence_go, lastDrive_setHigh]

theorem endsReleased_find_go (env : BusEnv) :
    ∀ (n bi addr : Nat) (s : BusST), endsReleased s →
      endsReleased ((find_first_go env n bi addr s).2) := by
  intro n
  induction n with
  | zero => intro bi addr s h; exact h
  | succ n ih =>
    intro bi addr s h
    simp only [find_first_go]
    split
    · exact endsReleased_read_bit env _
    · exact ih _ _ _ (endsReleased_write_bit _ _)
    · exact ih _ _ _ (endsReleased_write_bit _ _)
    · exact ih _ _ _ (endsReleased_write_bit _ _)

theorem endsReleased_find_first_device (env : BusEnv) (s : BusST) :
    endsReleased (find_first_device env s).2 := by
  unfold find_first_device
  rcases h : reset env s with ⟨r1, s1⟩
  have hr : endsReleased s1 := by
    have hh := endsReleased_reset env s
    rw [h] at hh
    exact hh
  cases r1 with
  | error e => exact hr
  | ok u => exact endsReleased_find_go env 64 0 0 _ (endsReleased_write_byte _ _)

/-- Claim C9: every bus-engine operation — `reset`, `write_bit`,
`write_byte`, `read_bit`, `read_byte`, `match_address`,
`find_first_device` — leaves the pin released when it returns, on success
and on every error path: the most recent drive event of the resulting
trace is always a set-high, for every environment and starting state. -/
theorem bus_ops_release_pin (env : BusEnv) (s : BusST) (v : Bool) (byte addr : Nat) :
    endsReleased (reset env s).2 ∧
    endsReleased (write_bit v s) ∧
    endsReleased (write_byte byte s) ∧
    endsReleased (read_bit env s).2 ∧
    endsReleased (read_byte env s).2 ∧
    endsReleased (match_address addr s) ∧
    endsReleased (find_first_device env s).2 :=
  ⟨endsReleased_reset env s, endsReleased_write_bit v s, endsReleased_write_byte byte s,
    endsReleased_read_bit env s, endsReleased_read_byte env s,
    endsReleased_match_address addr s, endsReleased_find_first_device env s⟩

theorem wait_go_step_low (env : BusEnv) (n i : Nat) (t : List PinEvent)
    (h0 : env.line i = false) :
    wait_for_high_go env (n + 1) ⟨i, t⟩ =
      wait_for_high_go env n ⟨i + 1, .delayMicros 10 :: .sample false :: t⟩ := by
  simp [wait_for_high_go, sampleLine, delayMicros, h0]

theorem wait_go_none (env : BusEnv) :
    ∀ (n i : Nat) (t : List PinEvent), (∀ k < n, env.line (i + k) = false) →
      (wait_for_high_go env n ⟨i, t⟩).1 = .error .BusNotHighTimeout := by
  intro n
  induction n with
  | zero => intro i t h; rfl
  | succ n ih =>
    intro i t h
    have h0 : env.line i = false := by simpa using h 0 (Nat.succ_pos n)
    rw [wait_go_step_low env n i t h0]
    exact ih (i + 1) _ (fun k hk => by
      have := h (k + 1) (Nat.succ_lt_succ hk)
      simpa [Nat.add_assoc, Nat.add_comm 1 k] using this)

theorem wait_go_first_high (env : BusEnv) :
    ∀ (n j i : Nat) (t : List PinEvent), j < n → env.line (i + j) = true →
      (∀ k < j, env.line (i + k) = false) →
      (wait_for_high_go env n ⟨i, t⟩).1 = .ok () ∧
      (wait_for_high_go env n ⟨i, t⟩).2.idx = i + j + 1 ∧
      ∃ X, (wait_for_high_go env n ⟨i, t⟩).2.trace = X ++ t := by
  intro n
  induction n with
  | zero => intro j i t hj; omega
  | succ n ih =>
    intro j i t hj hhit hlow
    cases j with
    | zero =>
      have h0 : env.line i = true := by simpa using hhit
      refine ⟨?_, ?_, ⟨[.sample true], ?_⟩⟩ <;>
        simp [wait_for_high_go, sampleLine, h0]
    | succ j =>
      have h0 : env.line i = false := by simpa using hlow 0 (Nat.succ_pos j)
      rw [wait_go_step_low env n i t h0]
      obtain ⟨hA, hB, X, hX⟩ := ih j (i + 1) (.delayMicros 10 :: .sample false :: t)
        (Nat.lt_of_succ_lt_succ hj)
        (by simpa [Nat.add_assoc, Nat.add_comm 1 j] using hhit)
        (fun k hk => by
          have := hlow (k + 1) (Nat.succ_lt_succ hk)
          simpa [Nat.add_assoc, Nat.add_comm 1 k] using this)
      refine ⟨hA, by rw [hB]; omega, ⟨X ++ [.delayMicros 10, .sample false], by rw [hX]; simp⟩⟩

theorem presence_go_true (env : BusEnv) :
    ∀ (n : Nat) (s : BusST), (reset_presence_go env n true s).1 = true := by
  intro n
  induction n with
  | zero => intro s; rfl
  | succ n ih => intro s; simp only [reset_presence_go, if_true]; exact ih _

theorem presence_step_seen (env : BusEnv) (n i : Nat) (t : List PinEvent) :
    reset_presence_go env (n + 1) true ⟨i, t⟩ =
      reset_presence_go env n true ⟨i, .delayMicros 20 :: t⟩ := by
  simp [reset_presence_go, delayMicros]

theorem presence_step_sampling (env : BusEnv) (n i : Nat) (t : List PinEvent) :
    reset_presence_go env (n + 1) false ⟨i, t⟩ =
      reset_presence_go env n (!env.line i)
        ⟨i + 1, .delayMicros 20 :: .sample (env.line i) :: t⟩ := by
  simp [reset_presence_go, sampleLine, delayMicros]

theorem presence_go_false_iff (env : BusEnv) :
    ∀ (n i : Nat) (t : List PinEvent),
      ((reset_presence_go env n false ⟨i, t⟩).1 = true ↔
        ∃ k, k < n ∧ env.line (i + k) = false) := by
  intro n
  induction n with
  | zero =>
    intro i t
    constructor
    · intro h; simp [reset_presence_go] at h
    · rintro ⟨k, hk, _⟩; omega
  | succ n ih =>
    intro i t
    rw [presence_step_sampling env n i t]
    cases hline : env.line i with
    | false =>
      constructor
      · intro _; exact ⟨0, Nat.succ_pos n, by simpa using hline⟩
      · intro _
        exact presence_go_true env n _
    | true =>
      show (reset_presence_go env n false
        ⟨i + 1, .delayMicros 20 :: .sample true :: t⟩).1 = true ↔ _
      rw [ih (i + 1) (.delayMicros 20 :: .sample true :: t)]
      constructor
      · rintro ⟨k, hk, hl⟩
        refine ⟨k + 1, Nat.succ_lt_succ hk, ?_⟩
        simpa [Nat.add_assoc, Nat.add_comm 1 k] using hl
      · rintro ⟨k, hk, hl⟩
        cases k with
        | zero =>
          rw [show i + 0 = i from rfl] at hl
          rw [hline] at hl
          exact absurd hl (by decide)
        | succ k =>
          refine ⟨k, Nat.lt_of_succ_lt_succ hk, ?_⟩
          simpa [Nat.add_assoc, Nat.add_comm 1 k] using hl

theorem presence_go_trace (env : BusEnv) :
    ∀ (n : Nat) (p : Bool) (i : Nat) (t : List PinEvent),
      ∃ X, (reset_presence_go env n p ⟨i, t⟩).2.trace = X ++ t := by
  intro n
  induction n with
  | zero => intro p i t; exact ⟨[], rfl⟩
  | succ n ih =>
    intro p i t
    cases p with
    | true =>
      rw [presence_step_seen env n i t]
      obtain ⟨X, hX⟩ := ih true i (.delayMicros 20 :: t)
      exact ⟨X ++ [.delayMicros 20], by rw [hX]; simp⟩
    | false =>
      rw [presence_step_sampling env n i t]
      obtain ⟨X, hX⟩ := ih (!env.line i) (i + 1) (.delayMicros 20 :: .sample (env.line i) :: t)
      exact ⟨X ++ [.delayMicros 20, .sample (env.line i)], by rw [hX]; simp⟩

/-- Claim C4: `reset` first releases the bus and waits (25 samples, 10 µs
apart, spanning the 250 µs window) for the line to float high, failing with
`BusNotHighTimeout` if it never does; otherwise it drives the line low for
504 µs, releases it, and samples a 504 µs presence window (26 samples,
20 µs apart), returning `Ok` iff the line was observed low at least once in
that window and `DeviceNotPresent` iff it never was. -/
theorem reset_spec (env : BusEnv) (s : BusST) :
    ((∀ k, k < 25 → env.line (s.idx + k) = false) →
      (reset env s).1 = .error .BusNotHighTimeout) ∧
    (∀ j, j < 25 → env.line (s.idx + j) = true →
      (∀ k, k < j → env.line (s.idx + k) = false) →
      ((reset env s).1 = .ok () ↔ ∃ k, k < 26 ∧ env.line (s.idx + j + 1 + k) = false) ∧
      ((reset env s).1 = .error .DeviceNotPresent ↔
        ¬∃ k, k < 26 ∧ env.line (s.idx + j + 1 + k) = false) ∧
      [PinEvent.setHigh, .delayMicros RESET_TIME_HIGH, .setLow].IsInfix
        (reset env s).2.trace) := by
  constructor
  · intro hlow
    have hw := wait_go_none env 25 s.idx (.setHigh :: s.trace) hlow
    rcases hq : wait_for_high env (setHigh s) with ⟨r1, s1⟩
    have hr1 : r1 = .error .BusNotHighTimeout := by
      rw [show r1 = (wait_for_high env (setHigh s)).1 from by rw [hq]]
      exact hw
    subst hr1
    simp only [reset, hq]
  · intro j hj hhit hlow2
    obtain ⟨hA, hB, X, hX⟩ :=
      wait_go_first_high env 25 j s.idx (.setHigh :: s.trace) hj hhit hlow2
    rcases hq : wait_for_high env (setHigh s) with ⟨r1, s1⟩
    have hr1 : r1 = .ok () := by
      rw [show r1 = (wait_for_high env (setHigh s)).1 from by rw [hq]]
      exact hA
    subst hr1
    have hidx : s1.idx = s.idx + j + 1 := by
      rw [show s1 = (wait_for_high env (setHigh s)).2 from by rw [hq]]
      exact hB
    have htr : s1.trace = X ++ (.setHigh :: s.trace) := by
      rw [show s1 = (wait_for_high env (setHigh s)).2 from by rw [hq]]
      exact hX
    have hstate : setHigh (delayMicros RESET_TIME_HIGH (setLow s1)) =
        (⟨s1.idx, .setHigh :: .delayMicros RESET_TIME_HIGH :: .setLow :: s1.trace⟩ : BusST) :=
      rfl
    have hres1 : (reset env s).1 =
        if (reset_presence_go env 26 false
            ⟨s1.idx, .setHigh :: .delayMicros RESET_TIME_HIGH :: .setLow :: s1.trace⟩).1 = true
        then .ok () else .error .DeviceNotPresent := by
      by_cases hc : (reset_presence_go env 26 false
          ⟨s1.idx, .setHigh :: .delayMicros RESET_TIME_HIGH :: .setLow :: s1.trace⟩).1 = true
      · simp only [reset, hq]
        rw [hstate]
        simp [hc]
      · simp only [reset, hq]
        rw [hstate]
        simp [hc]
    have hres2 : (reset env s).2.trace =
        (reset_presence_go env 26 false
          ⟨s1.idx, .setHigh :: .delayMicros RESET_TIME_HIGH :: .setLow :: s1.trace⟩).2.trace := by
      by_cases hc : (reset_presence_go env 26 false
          ⟨s1.idx, .setHigh :: .delayMicros RESET_TIME_HIGH :: .setLow :: s1.trace⟩).1 = true
      · simp only [reset, hq]
        rw [hstate]
        simp [hc]
      · simp only [reset, hq]
        rw [hstate]
        simp [hc]
    have hiff2 : (reset_presence_go env 26 false
        ⟨s1.idx, .setHigh :: .delayMicros RESET_TIME_HIGH :: .setLow :: s1.trace⟩).1 = true ↔
        ∃ k, k < 26 ∧ env.line (s.idx + j + 1 + k) = false :=
      Iff.trans (presence_go_false_iff env 26 s1.idx _) (by rw [hidx])
    refine ⟨?_, ?_, ?_⟩
    · rw [hres1]
      by_cases hc : (reset_presence_go env 26 false
          ⟨s1.idx, .setHigh :: .delayMicros RESET_TIME_HIGH :: .setLow :: s1.trace⟩).1 = true
      · rw [if_pos hc]
        exact ⟨fun _ => hiff2.mp hc, fun _ => rfl⟩
      · rw [if_neg hc]
        exact ⟨(fun hh => nomatch hh), fun hex => absurd (hiff2.mpr hex) hc⟩
    · rw [hres1]
      by_cases hc : (reset_presence_go env 26 false
          ⟨s1.idx, .setHigh :: .delayMicros RESET_TIME_HIGH :: .setLow :: s1.trace⟩).1 = true
      · rw [if_pos hc]
        exact ⟨(fun hh => nomatch hh), fun hne => absurd (hiff2.mp hc) hne⟩
      · rw [if_neg hc]
        exact ⟨fun _ hex => absurd (hiff2.mpr hex) hc, fun _ => rfl⟩
    · obtain ⟨Y, hY⟩ := presence_go_trace env 26 false s1.idx
        (.setHigh :: .delayMicros RESET_TIME_HIGH :: .setLow :: s1.trace)
      refine ⟨Y, s1.trace, ?_⟩
      rw [hres2, hY]
      simp

/-- Witness for claim C4: a line that never floats high trips
`BusNotHighTimeout`; a line that floats high at once and pulls low on the
second sample yields a presence pulse and `Ok`. -/
theorem reset_spec_witness :
    (reset ⟨fun _ => false⟩ ⟨0, []⟩).1 = .error .BusNotHighTimeout ∧
    (reset ⟨fun k => k == 0⟩ ⟨0, []⟩).1 = .ok () := by
  constructor
  · exact (reset_spec ⟨fun _ => false⟩ ⟨0, []⟩).1 (fun k _ => rfl)
  · exact ((reset_spec ⟨fun k => k == 0⟩ ⟨0, []⟩).2 0 (by omega) rfl
      (fun k hk => by omega)).1.mpr ⟨0, by omega, rfl⟩

theorem read_bytesN_length (env : BusEnv) :
    ∀ (n : Nat) (s : BusST), (read_bytesN env n s).1.length = n := by
  intro n
  induction n with
  | zero => intro s; rfl
  | succ n ih =>
    intro s
    simp only [read_bytesN, List.length_cons]
    rw [ih]

/-- Claim C8: `read_scratchpad` performs reset, address match and the
read-scratchpad command, reads exactly 9 bytes, and validates the CRC-8
over all 9 bytes before returning: every `Ok` value it returns passes
`check_crc8` and has length 9, and when the CRC of the 9 bytes read does
not reduce to zero it fails with `ChecksumFailed` instead of returning
them. -/
theorem read_scratchpad_spec (env : BusEnv) (addr : Nat) (s : BusST) :
    (∀ bytes, (read_scratchpad env addr s).1 = .ok bytes →
      check_crc8 bytes = .ok () ∧ bytes.length = 9 ∧ bytes = scratch_bytes env addr s) ∧
    ((reset env s).1 = .ok () → crc8 (scratch_bytes env addr s) ≠ 0 →
      (read_scratchpad env addr s).1 = .error (.OneWireError .ChecksumFailed)) ∧
    ((reset env s).1 = .ok () → crc8 (scratch_bytes env addr s) = 0 →
      (read_scratchpad env addr s).1 = .ok (scratch_bytes env addr s)) := by
  rcases hr : reset env s with ⟨r1, s1⟩
  cases r1 with
  | error e =>
    refine ⟨?_, ?_, ?_⟩
    · intro bytes h
      rw [show (read_scratchpad env addr s).1 = .error (.OneWireError e) from by
        simp only [read_scratchpad, hr]] at h
      exact nomatch h
    · intro h
      simp [hr] at h
    · intro h
      simp [hr] at h
  | ok u =>
    cases u
    have hsb : scratch_bytes env addr s =
        (read_bytesN env 9 (write_byte READ_SCRATCHPAD (match_address addr s1))).1 := by
      unfold scratch_bytes
      rw [hr]
    by_cases hz :
      crc8 ((read_bytesN env 9 (write_byte READ_SCRATCHPAD (match_address addr s1))).1) = 0
    · have hcb : check_crc8
          ((read_bytesN env 9 (write_byte READ_SCRATCHPAD (match_address addr s1))).1) =
          .ok () := (check_crc8_eq_ok_iff _).mpr hz
      have hres : (read_scratchpad env addr s).1 =
          .ok ((read_bytesN env 9 (write_byte READ_SCRATCHPAD (match_address addr s1))).1) := by
        simp only [read_scratchpad, hr, hcb]
      refine ⟨?_, ?_, ?_⟩
      · intro bytes h
        rw [hres] at h
        cases h
        exact ⟨hcb, read_bytesN_length env 9 _, hsb.symm⟩
      · intro _ hcrc
        rw [hsb] at hcrc
        exact absurd hz hcrc
      · intro _ _
        rw [hres, hsb]
    · have hcb : check_crc8
          ((read_bytesN env 9 (write_byte READ_SCRATCHPAD (match_address addr s1))).1) =
          .error .ChecksumFailed := check_crc8_eq_error_of_ne _ hz
      have hres : (read_scratchpad env addr s).1 = .error (.OneWireError .ChecksumFailed) := by
        simp only [read_scratchpad, hr, hcb]
      refine ⟨?_, ?_, ?_⟩
      · intro bytes h
        rw [hres] at h
        exact nomatch h
      · intro _ _
        exact hres
      · intro _ hcrc
        rw [hsb] at hcrc
        exact absurd hcrc hz

/-- Witness for claim C8: a bus whose line is high only at the very first
sample produces a successful reset followed by an all-zero scratchpad,
whose CRC (zero) validates, so `read_scratchpad` returns it. -/
theorem read_scratchpad_spec_witness :
    check_crc8 [0, 0, 0, 0, 0, 0, 0, 0, 0] = .ok () ∧
    ([0, 0, 0, 0, 0, 0, 0, 0, 0] : List Nat).length = 9 ∧
    ([0, 0, 0, 0, 0, 0, 0, 0, 0] : List Nat) = scratch_bytes ⟨fun k => k == 0⟩ 0x28 ⟨0, []⟩ :=
  (read_scratchpad_spec ⟨fun k => k == 0⟩ 0x28 ⟨0, []⟩).1 [0, 0, 0, 0, 0, 0, 0, 0, 0]
    (by decide)

theorem testBit_or_pow_self (a i : Nat) : (a ||| 1 <<< i).testBit i = true := by
  simp [Nat.testBit_or, Nat.one_shiftLeft, Nat.testBit_two_pow_self]

theorem testBit_or_pow_ne (a i j : Nat) (h : j ≠ i) :
    (a ||| 1 <<< i).testBit j = a.testBit j := by
  simp [Nat.testBit_or, Nat.one_shiftLeft, Nat.testBit_two_pow_of_ne (Ne.symm h)]

theorem and_mask_eq_self (a i : Nat) (ha : a < 2 ^ i) (hi : i < 64) :
    a &&& (UINT64_MAX ^^^ (1 <<< i)) = a := by
  apply Nat.eq_of_testBit_eq
  intro j
  rw [Nat.testBit_and]
  by_cases hji : j = i
  · subst hji
    rw [Nat.testBit_lt_two_pow ha]
    rfl
  · by_cases hj64 : j < 64
    · have hmaxbit : Nat.testBit UINT64_MAX j = true := by
        rw [show UINT64_MAX = 2 ^ 64 - 1 from rfl, Nat.testBit_two_pow_sub_one]
        simp [hj64]
      rw [show (UINT64_MAX ^^^ (1 <<< i)).testBit j = true from by
        simp [Nat.testBit_xor, Nat.one_shiftLeft,
          Nat.testBit_two_pow_of_ne (Ne.symm hji), hmaxbit]]
      rw [Bool.and_true]
    · rw [Nat.testBit_lt_two_pow
        (Nat.lt_of_lt_of_le ha (Nat.pow_le_pow_right (by omega) (by omega)))]
      rfl

theorem or_pow_lt_next (a i : Nat) (ha : a < 2 ^ i) : a ||| 1 <<< i < 2 ^ (i + 1) := by
  rw [Nat.one_shiftLeft]
  exact Nat.or_lt_two_pow
    (Nat.lt_of_lt_of_le ha (Nat.pow_le_pow_right (by omega) (Nat.le_succ i)))
    (Nat.pow_lt_pow_right (by omega) (Nat.lt_succ_self i))

theorem search_go_spec : ∀ (n bit_index address : Nat) (P : List Nat),
    P ≠ [] → bit_index + n = 64 →
    (∀ d ∈ P, d < 2 ^ 64) → address < 2 ^ bit_index →
    (∀ d ∈ P, ∀ j, j < bit_index → d.testBit j = address.testBit j) →
    ∃ m, m ∈ P ∧ (∀ d ∈ P, lsbLexLe m d) ∧
      search_go n bit_index address P =
        (match check_crc8 (toLeBytes8 m) with
         | .error e => Except.error e
         | .ok _ => Except.ok m) := by
  intro n
  induction n with
  | zero =>
    intro bit_index address P hne hsum hlt haddr hagree
    obtain ⟨d0, hd0⟩ := List.exists_mem_of_ne_nil P hne
    have hb : bit_index = 64 := by omega
    subst hb
    have heq : ∀ d ∈ P, d = address := by
      intro d hd
      apply Nat.eq_of_testBit_eq
      intro j
      by_cases hj : j < 64
      · exact hagree d hd j hj
      · rw [Nat.testBit_lt_two_pow
            (Nat.lt_of_lt_of_le (hlt d hd) (Nat.pow_le_pow_right (by omega) (by omega))),
          Nat.testBit_lt_two_pow
            (Nat.lt_of_lt_of_le haddr (Nat.pow_le_pow_right (by omega) (by omega)))]
    refine ⟨address, ?_, ?_, rfl⟩
    · rw [← heq d0 hd0]
      exact hd0
    · intro d hd
      exact .inl (heq d hd).symm
  | succ n ih =>
    intro bit_index address P hne hsum hlt haddr hagree
    obtain ⟨d0, hd0⟩ := List.exists_mem_of_ne_nil P hne
    have haddrbit : address.testBit bit_index = false := Nat.testBit_lt_two_pow haddr
    by_cases hall1 : ∀ d ∈ P, d.testBit bit_index = true
    · have hfb : P.all (fun d => d.testBit bit_index) = true :=
        List.all_eq_true.mpr hall1
      have htb : P.all (fun d => !(d.testBit bit_index)) = false := by
        cases hx : P.all (fun d => !(d.testBit bit_index)) with
        | false => rfl
        | true =>
          have := List.all_eq_true.mp hx d0 hd0
          rw [hall1 d0 hd0] at this
          exact absurd this (by decide)
      have hstep : search_go (n + 1) bit_index address P =
          search_go n (bit_index + 1) (address ||| (1 <<< bit_index))
            (P.filter (fun d => d.testBit bit_index)) := by
        simp only [search_go, hfb, htb, Bool.not_true, Bool.not_false]
      have hPfil : P.filter (fun d => d.testBit bit_index) = P :=
        List.filter_eq_self.mpr (fun a ha => hall1 a ha)
      rw [hstep, hPfil]
      exact ih (bit_index + 1) (address ||| (1 <<< bit_index)) P hne (by omega) hlt
        (or_pow_lt_next address bit_index haddr)
        (by
          intro d hd j hj
          rcases Nat.lt_succ_iff_lt_or_eq.mp hj with hj1 | hj1
          · rw [testBit_or_pow_ne _ _ _ (by omega), hagree d hd j hj1]
          · subst hj1
            rw [testBit_or_pow_self, hall1 d hd])
    · have hexz : ∃ dz, dz ∈ P ∧ dz.testBit bit_index = false := by
        push_neg at hall1
        obtain ⟨dz, hdzP, hdzbit⟩ := hall1
        exact ⟨dz, hdzP, by simpa using hdzbit⟩
      obtain ⟨dz, hdzP, hdzbit⟩ := hexz
      have hfb : P.all (fun d => d.testBit bit_index) = false := by
        cases hx : P.all (fun d => d.testBit bit_index) with
        | false => rfl
        | true =>
          have := List.all_eq_true.mp hx dz hdzP
          rw [hdzbit] at this
          exact absurd this (by decide)
      have hmask : address &&& (UINT64_MAX ^^^ (1 <<< bit_index)) = address :=
        and_mask_eq_self address bit_index haddr (by omega)
      by_cases hall0 : ∀ d ∈ P, d.testBit bit_index = false
      · have htb : P.all (fun d => !(d.testBit bit_index)) = true :=
          List.all_eq_true.mpr (fun d hd => by rw [hall0 d hd]; rfl)
        have hstep : search_go (n + 1) bit_index address P =
            search_go n (bit_index + 1) (address &&& (UINT64_MAX ^^^ (1 <<< bit_index)))
              (P.filter (fun d => !(d.testBit bit_index))) := by
          simp only [search_go, hfb, htb, Bool.not_true, Bool.not_false]
        have hPfil : P.filter (fun d => !(d.testBit bit_index)) = P :=
          List.filter_eq_self.mpr (fun a ha => by rw [hall0 a ha]; rfl)
        rw [hstep, hmask, hPfil]
        exact ih (bit_index + 1) address P hne (by omega) hlt
          (Nat.lt_of_lt_of_le haddr (Nat.pow_le_pow_right (by omega) (Nat.le_succ _)))
          (by
            intro d hd j hj
            rcases Nat.lt_succ_iff_lt_or_eq.mp hj with hj1 | hj1
            · exact hagree d hd j hj1
            · subst hj1
              rw [hall0 d hd, haddrbit])
      · have hext : ∃ dt, dt ∈ P ∧ dt.testBit bit_index = true := by
          push_neg at hall0
          obtain ⟨dt, hdtP, hdtbit⟩ := hall0
          exact ⟨dt, hdtP, by simpa using hdtbit⟩
        obtain ⟨dt, hdtP, hdtbit⟩ := hext
        have htb : P.all (fun d => !(d.testBit bit_index)) = false := by
          cases hx : P.all (fun d => !(d.testBit bit_index)) with
          | false => rfl
          | true =>
            have := List.all_eq_true.mp hx dt hdtP
            rw [hdtbit] at this
            exact absurd this (by decide)
        have hstep : search_go (n + 1) bit_index address P =
            search_go n (bit_index + 1) (address &&& (UINT64_MAX ^^^ (1 <<< bit_index)))
              (P.filter (fun d => !(d.testBit bit_index))) := by
          simp only [search_go, hfb, htb, Bool.not_true, Bool.not_false]
        have hP2ne : P.filter (fun d => !(d.testBit bit_index)) ≠ [] := by
          have hmem : dz ∈ P.filter (fun d => !(d.testBit bit_index)) :=
            List.mem_filter.mpr ⟨hdzP, by rw [hdzbit]; rfl⟩
          intro hcon
          rw [hcon] at hmem
          exact List.not_mem_nil _ hmem
        obtain ⟨m, hmP2, hmin2, hres⟩ :=
          ih (bit_index + 1) address (P.filter (fun d => !(d.testBit bit_index))) hP2ne
            (by omega)
            (fun d hd => hlt d (List.mem_filter.mp hd).1)
            (Nat.lt_of_lt_of_le haddr (Nat.pow_le_pow_right (by omega) (Nat.le_succ _)))
            (by
              intro d hd j hj
              have hdP := (List.mem_filter.mp hd).1
              have hdbit : d.testBit bit_index = false := by
                have := (List.mem_filter.mp hd).2
                simpa using this
              rcases Nat.lt_succ_iff_lt_or_eq.mp hj with hj1 | hj1
              · exact hagree d hdP j hj1
              · subst hj1
                rw [hdbit, haddrbit])
        have hmP : m ∈ P := (List.mem_filter.mp hmP2).1
        have hmbit : m.testBit bit_index = false := by
          have := (List.mem_filter.mp hmP2).2
          simpa using this
        refine ⟨m, hmP, ?_, by rw [hstep, hmask]; exact hres⟩
        intro d hdP
        by_cases hdbit : d.testBit bit_index = true
        · refine .inr ⟨bit_index, hmbit, hdbit, ?_⟩
          intro j hj
          rw [hagree m hmP j hj, hagree d hdP j hj]
        · have hdbit0 : d.testBit bit_index = false := by
            cases hx : d.testBit bit_index with
            | false => rfl
            | true => exact absurd hx hdbit
          exact hmin2 d (List.mem_filter.mpr ⟨hdP, by rw [hdbit0]; rfl⟩)

/-- Counterexample to claim C1's "lowest address" clause: two CRC-valid
device addresses where the numerically smaller one (0x3D00000000000001,
whose low bit is 1) is *not* returned — the search's choose-0-on-
discrepancy policy works LSB-first, so it returns the numerically larger
device 0x5E01000000000000, whose bit 0 is 0. -/
theorem find_first_device_sim_counterexample :
    check_crc8 (toLeBytes8 0x3D00000000000001) = .ok () ∧
    check_crc8 (toLeBytes8 0x5E01000000000000) = .ok () ∧
    (0x3D00000000000001 : Nat) < 0x5E01000000000000 ∧
    find_first_device_sim [0x3D00000000000001, 0x5E01000000000000] =
      .ok 0x5E01000000000000 := by decide

/-- Claim C1 (amended): for a simulated bus populated with any nonempty set
of 64-bit devices, `find_first_device`'s search loop iterates all 64
address bits, never hits the `(0,0)` no-response case, takes the agreed
value where the devices agree and deterministically chooses the 0 branch
on a discrepancy — so it converges on the device address that is least in
LSB-first lexicographic bit order (for two devices differing in a single
bit, the one with 0 at that bit; this is not in general the numerically
lowest address) — and the address, assembled LSB-first, is returned only
after `check_crc8` over its little-endian bytes succeeds. -/
theorem find_first_device_sim_lowest (devices : List Nat) (hne : devices ≠ [])
    (hlt : ∀ d ∈ devices, d < 2 ^ 64) :
    ∃ m, m ∈ devices ∧ (∀ d ∈ devices, lsbLexLe m d) ∧
      find_first_device_sim devices =
        (match check_crc8 (toLeBytes8 m) with
         | .error e => Except.error e
         | .ok _ => Except.ok m) :=
  search_go_spec 64 0 0 devices hne rfl hlt (by decide)
    (fun d hd j hj => absurd hj (Nat.not_lt_zero j))

/-- Witness for claim C1 at the two-device bus of the counterexample. -/
theorem find_first_device_sim_lowest_witness :
    ∃ m, m ∈ [(0x3D00000000000001 : Nat), 0x5E01000000000000] ∧
      (∀ d ∈ [(0x3D00000000000001 : Nat), 0x5E01000000000000], lsbLexLe m d) ∧
      find_first_device_sim [0x3D00000000000001, 0x5E01000000000000] =
        (match check_crc8 (toLeBytes8 m) with
         | .error e => Except.error e
         | .ok _ => Except.ok m) :=
  find_first_device_sim_lowest [0x3D00000000000001, 0x5E01000000000000]
    (by decide) (by decide)
